import Mathlib

/-!
Shallow embedding of the Wallet Sync Manager (BRSyncManager.c) of
breadwallet-core, together with theorems settling the specification
claims about it.

The mutable C state of a `BRClientSyncManager` (resp. `BRPeerSyncManager`)
becomes an explicit state record; every operation becomes a pure function
from the pre-state (plus a snapshot of the external collaborators it reads:
the wallet, the chain parameters, the transaction codec, the peer manager)
to a post-state together with the lists of emitted events, client callback
invocations and wallet mutations, in emission order.  Machine integers are
Nat with explicit `% 2^32` / `% 2^64` where the C code can truncate or wrap.
-/

set_option linter.all false

namespace BRSyncManager

/-- A Bitcoin address, modelled by its canonical string form (`BRAddress`). -/
abbrev BRAddress := String

/-- `BR_ADDRESS_NONE` and the all-zero `BRAddress` produced by `memset`. -/
def ADDRESS_NONE : BRAddress := ""

def CONFIRMATION_BLOCK_COUNT : Nat := 6

def ONE_WEEK_IN_SECONDS : Nat := 7 * 24 * 60 * 60

def BWM_MINUTES_PER_BLOCK : Nat := 10

def BWM_BRD_SYNC_DAYS_OFFSET : Nat := 1

def BWM_BRD_SYNC_START_BLOCK_OFFSET : Nat :=
  (BWM_BRD_SYNC_DAYS_OFFSET * 24 * 60) / BWM_MINUTES_PER_BLOCK

/-- `2 ^ 32`, written as a literal so that terms stay cheap to reduce. -/
def UINT32_MOD : Nat := 4294967296

/-- `2 ^ 64`, written as a literal so that terms stay cheap to reduce. -/
def UINT64_MOD : Nat := 18446744073709551616

/-- Truncation to uint64: extensionally `n % 2 ^ 64` (see `wrap64_eq`);
the guarded form keeps symbolic terms cheap to reduce. -/
def wrap64 (n : Nat) : Nat :=
  if n < UINT64_MOD then n else n % UINT64_MOD

/-- Truncation to uint32: extensionally `n % 2 ^ 32` (see `wrap32_eq`). -/
def wrap32 (n : Nat) : Nat :=
  if n < UINT32_MOD then n else n % UINT32_MOD

/-- The `TX_UNCONFIRMED` sentinel block height of an unconfirmed transaction
(`INT32_MAX` in the source headers); its exact value is irrelevant here, it
only serves as the sentinel excluded by the confirmed-send search. -/
def TX_UNCONFIRMED : Nat := 2147483647

/-- The view of one wallet transaction that `_getLastConfirmedSendTxHeight`
reads: its (uint32) block height and the wallet predicates
`BRWalletTransactionIsValid` and `BRWalletAmountSentByTx`. -/
structure WalletTx where
  blockHeight : Nat
  isValid : Bool
  amountSent : Nat
  deriving Repr, DecidableEq

/-- A parsed `BRTransaction`, as far as the sync manager inspects it. -/
structure Transaction where
  txHash : Nat
  serialized : List Nat
  isSigned : Bool
  timestamp : Nat
  blockHeight : Nat
  deriving Repr, DecidableEq

/-- Snapshot of the external `BRWallet` collaborator at the moment an
operation reads it: the transaction list, the first unused external and
internal addresses (after the gap-limit pre-roll that the operations
perform), the full address list (`BRWalletAllAddrs`), the legacy encoding
(`BRWalletAddressToLegacy`) and hash lookup (`BRWalletTransactionForHash`). -/
structure Wallet where
  txs : List WalletTx
  firstUnusedExternal : BRAddress
  firstUnusedInternal : BRAddress
  allAddrs : List BRAddress
  legacy : BRAddress → BRAddress
  hasTx : Nat → Bool

/-- A chain-parameter checkpoint (`BRCheckPoint`). -/
structure BRCheckPoint where
  height : Nat
  timestamp : Nat
  deriving Repr, DecidableEq

/-- The chain-parameter queries the sync manager performs. -/
structure BRChainParams where
  checkpointBefore : Nat → Option BRCheckPoint
  checkpointBeforeBlockNumber : Nat → Option BRCheckPoint

/-- `_getLastConfirmedSendTxHeight`: height of the most recent valid,
confirmed send transaction, 0 when there is none. -/
def getLastConfirmedSendTxHeight (txs : List WalletTx) (lastBlockHeight : Nat) : Nat :=
  if CONFIRMATION_BLOCK_COUNT ≤ lastBlockHeight ∧ txs ≠ [] then
    txs.foldl
      (fun scanHeight t =>
        if t.isValid = true ∧ t.amountSent ≠ 0 ∧ t.blockHeight ≠ TX_UNCONFIRMED ∧
            t.blockHeight < lastBlockHeight - CONFIRMATION_BLOCK_COUNT then
          max t.blockHeight scanHeight
        else scanHeight)
      0
  else 0

/-- `_getWalletAddresses`: all wallet addresses followed by their
legacy-encoded forms (an array of length `2 * addrCount`). -/
def getWalletAddresses (w : Wallet) : List BRAddress :=
  w.allAddrs ++ w.allAddrs.map w.legacy

/-- Insertion into the `knownAddresses` set (`BRSetAdd` guarded by
`BRSetContains`), modelled as an order-preserving de-duplicating append. -/
def addAddressToSet (s : List BRAddress) (a : BRAddress) : List BRAddress :=
  if a ∈ s then s else s ++ [a]

/-- `_fillWalletAddressSet`. -/
def fillWalletAddressSet (s : List BRAddress) (w : Wallet) : List BRAddress :=
  (getWalletAddresses w).foldl addAddressToSet s

/-- `_updateWalletAddressSet`: grow the known-address set and also return
the list of newly discovered addresses. -/
def updateWalletAddressSet (s : List BRAddress) (w : Wallet) :
    List BRAddress × List BRAddress :=
  (getWalletAddresses w).foldl
    (fun acc a => if a ∈ acc.1 then acc else (acc.1 ++ [a], acc.2 ++ [a]))
    (s, [])

/-- `struct BRClientSyncManagerScanStateRecord`. -/
structure ScanState where
  requestId : Int
  lastExternalAddress : BRAddress
  lastInternalAddress : BRAddress
  knownAddresses : List BRAddress
  begBlockNumber : Nat
  endBlockNumber : Nat
  isFullScan : Bool
  deriving Repr, DecidableEq

/-- `BRClientSyncManagerScanStateWipe` (a `memset` to zero). -/
def scanStateWipe : ScanState :=
  { requestId := 0
    lastExternalAddress := ADDRESS_NONE
    lastInternalAddress := ADDRESS_NONE
    knownAddresses := []
    begBlockNumber := 0
    endBlockNumber := 0
    isFullScan := false }

/-- `BRClientSyncManagerScanStateInit`.  `endBlockNumber` is uint64
arithmetic, hence the `% 2^64` on the increment. -/
def scanStateInit (w : Wallet) (syncedBlockHeight networkBlockHeight : Nat)
    (rid : Int) : ScanState :=
  let endB : Nat := wrap64 (max syncedBlockHeight networkBlockHeight + 1)
  let begB : Nat :=
    min syncedBlockHeight
      (if BWM_BRD_SYNC_START_BLOCK_OFFSET ≤ endB
        then endB - BWM_BRD_SYNC_START_BLOCK_OFFSET
        else 0)
  { requestId := rid
    lastExternalAddress := w.firstUnusedExternal
    lastInternalAddress := w.firstUnusedInternal
    knownAddresses := fillWalletAddressSet [] w
    begBlockNumber := begB
    endBlockNumber := endB
    isFullScan := decide (BWM_BRD_SYNC_START_BLOCK_OFFSET < endB - begB) }

/-- `BRClientSyncManagerScanStateIsInProgress`: `0 != scanState->requestId`. -/
def scanStateIsInProgress (s : ScanState) : Bool :=
  s.requestId ≠ 0

/-- `BRClientSyncManagerScanStateGetSyncedBlockNumber`:
`endBlockNumber - 1` in uint64 arithmetic, i.e.
`(endBlockNumber + (2^64 - 1)) % 2^64` on uint64 inputs
(see `scanStateGetSyncedBlockNumber_eq_mod`), in a guarded form that keeps
symbolic terms cheap to reduce. -/
def scanStateGetSyncedBlockNumber (s : ScanState) : Nat :=
  if s.endBlockNumber = 0 then UINT64_MOD - 1 else s.endBlockNumber - 1

/-- `BRClientSyncManagerScanStateAdvanceAndGetNewAddresses`: re-derive the
first-unused pair; when it moved, advance the captured pair, grow the known
set and return the newly discovered addresses (the no-change case returns
`NULL`, i.e. the empty list). -/
def scanStateAdvanceAndGetNewAddresses (s : ScanState) (w : Wallet) :
    ScanState × List BRAddress :=
  if w.firstUnusedExternal ≠ s.lastExternalAddress ∨
      w.firstUnusedInternal ≠ s.lastInternalAddress then
    let u := updateWalletAddressSet s.knownAddresses w
    ({ s with
        lastExternalAddress := w.firstUnusedExternal
        lastInternalAddress := w.firstUnusedInternal
        knownAddresses := u.1 },
      u.2)
  else (s, [])

/-- The mutable state of `struct BRClientSyncManagerStruct` (the borrowed
wallet and chain parameters are passed to each operation instead). -/
structure ClientSyncManager where
  initBlockHeight : Nat
  networkBlockHeight : Nat
  syncedBlockHeight : Nat
  isConnected : Bool
  requestIdGenerator : Int
  scanState : ScanState
  deriving Repr, DecidableEq

/-- The event taxonomy of `BRSyncManagerEvent` (the arms this development
needs). -/
inductive SyncEvent where
  | connected
  | disconnected
  | syncStarted
  | syncStopped (reason : Int)
  | blockHeightUpdated (height : Nat)
  | txnsUpdated
  | txnSubmitted (txHash : Nat) (error : Int)
  deriving Repr, DecidableEq

/-- An invocation of one of the `BRSyncManagerClientCallbacks`. -/
inductive ClientCall where
  | getBlockNumber (rid : Int)
  | getTransactions (addresses : List BRAddress) (begBlockNumber endBlockNumber : Nat) (rid : Int)
  | submitTransaction (bytes : List Nat) (txHash : Nat) (rid : Int)
  deriving Repr, DecidableEq

/-- A mutation of the external wallet performed by the manager. -/
inductive WalletAction where
  | registerTx (t : Transaction)
  | updateTx (txHash : Nat) (blockHeight timestamp : Nat)
  deriving Repr, DecidableEq

/-- Result of one client-mode operation: the post-state plus the events,
client calls and wallet mutations it performed, in order. -/
structure ClientOutput where
  state : ClientSyncManager
  events : List SyncEvent
  calls : List ClientCall
  walletActions : List WalletAction
  deriving Repr, DecidableEq

/-- An output that changes nothing and performs nothing. -/
def ClientOutput.skip (m : ClientSyncManager) : ClientOutput :=
  { state := m, events := [], calls := [], walletActions := [] }

/-- Sequencing of two operation fragments (the C operations run their
locked section and then further calls on the updated state). -/
def ClientOutput.andThen (o : ClientOutput)
    (f : ClientSyncManager → ClientOutput) : ClientOutput :=
  let o2 := f o.state
  { state := o2.state
    events := o.events ++ o2.events
    calls := o.calls ++ o2.calls
    walletActions := o.walletActions ++ o2.walletActions }

/-- `BRClientSyncManagerGenerateRid`: `return ++manager->requestIdGenerator`. -/
def generateRid (m : ClientSyncManager) : Int × ClientSyncManager :=
  (m.requestIdGenerator + 1, { m with requestIdGenerator := m.requestIdGenerator + 1 })

/-- `earliestKeyTime - ONE_WEEK_IN_SECONDS` in uint32 arithmetic, i.e.
`(earliestKeyTime + (2^32 - ONE_WEEK_IN_SECONDS)) % 2^32` on uint32 inputs
(see `keyTimeMinusOneWeek_eq_mod`), in a guarded form that keeps symbolic
terms cheap to reduce. -/
def keyTimeMinusOneWeek (earliestKeyTime : Nat) : Nat :=
  if ONE_WEEK_IN_SECONDS ≤ earliestKeyTime then earliestKeyTime - ONE_WEEK_IN_SECONDS
  else earliestKeyTime + (UINT32_MOD - ONE_WEEK_IN_SECONDS)

/-- `BRClientSyncManagerNew` (client mode): `none` models the aborting
`assert` when no checkpoint precedes `earliestKeyTime - ONE_WEEK_IN_SECONDS`
(a uint32 subtraction). -/
def clientSyncManagerNew (params : BRChainParams) (earliestKeyTime : Nat)
    (blockHeight : Nat) : Option ClientSyncManager :=
  match params.checkpointBefore (keyTimeMinusOneWeek earliestKeyTime) with
  | none => none
  | some cp =>
      some
        { initBlockHeight := min cp.height blockHeight
          networkBlockHeight := max cp.height blockHeight
          syncedBlockHeight := min cp.height blockHeight
          isConnected := false
          requestIdGenerator := 0
          scanState := scanStateWipe }

/-- `BRClientSyncManagerUpdateBlockNumber`. -/
def updateBlockNumber (m : ClientSyncManager) : ClientOutput :=
  if m.isConnected then
    let g := generateRid m
    { state := g.2, events := [], calls := [ClientCall.getBlockNumber g.1], walletActions := [] }
  else ClientOutput.skip m

/-- `BRClientSyncManagerUpdateTransactions`. -/
def updateTransactions (w : Wallet) (m : ClientSyncManager) : ClientOutput :=
  if scanStateIsInProgress m.scanState = false ∧ m.isConnected = true then
    let g := generateRid m
    let ss := scanStateInit w m.syncedBlockHeight m.networkBlockHeight g.1
    { state := { g.2 with scanState := ss }
      events := if ss.isFullScan then [SyncEvent.syncStarted] else []
      calls := [ClientCall.getTransactions ss.knownAddresses ss.begBlockNumber ss.endBlockNumber g.1]
      walletActions := [] }
  else ClientOutput.skip m

/-- The locked section of `BRClientSyncManagerConnect`. -/
def connectLocked (m : ClientSyncManager) : ClientOutput :=
  if m.isConnected then ClientOutput.skip m
  else
    { state := { m with isConnected := true }
      events := [SyncEvent.connected]
      calls := []
      walletActions := [] }

/-- `BRClientSyncManagerConnect`. -/
def clientConnect (w : Wallet) (m : ClientSyncManager) : ClientOutput :=
  ((connectLocked m).andThen updateBlockNumber).andThen (updateTransactions w)

/-- `BRClientSyncManagerDisconnect`. -/
def clientDisconnect (m : ClientSyncManager) : ClientOutput :=
  if m.isConnected then
    { state := { m with isConnected := false, scanState := scanStateWipe }
      events :=
        (if m.scanState.isFullScan then [SyncEvent.syncStopped (-1)] else []) ++
          [SyncEvent.disconnected]
      calls := []
      walletActions := [] }
  else ClientOutput.skip m

/-- `BRSyncDepth`. -/
inductive BRSyncDepth where
  | low
  | medium
  | high
  deriving Repr, DecidableEq

/-- The locked section of `BRClientSyncManagerScanToDepth`.  The network
block height is truncated to uint32 when passed to
`_getLastConfirmedSendTxHeight`. -/
def scanToDepthLocked (params : BRChainParams) (w : Wallet)
    (depth : BRSyncDepth) (m : ClientSyncManager) : ClientOutput :=
  if m.isConnected then
    let synced : Nat :=
      match depth with
      | BRSyncDepth.low =>
          let scanHeight := getLastConfirmedSendTxHeight w.txs (wrap32 m.networkBlockHeight)
          if scanHeight = 0 then m.initBlockHeight else scanHeight
      | BRSyncDepth.medium =>
          match params.checkpointBeforeBlockNumber m.networkBlockHeight with
          | none => m.initBlockHeight
          | some cp => cp.height
      | BRSyncDepth.high => m.initBlockHeight
    { state := { m with syncedBlockHeight := synced, scanState := scanStateWipe }
      events :=
        (if m.scanState.isFullScan then [SyncEvent.syncStopped (-1)] else []) ++
          [SyncEvent.disconnected, SyncEvent.connected]
      calls := []
      walletActions := [] }
  else ClientOutput.skip m

/-- `BRClientSyncManagerScanToDepth`. -/
def clientScanToDepth (params : BRChainParams) (w : Wallet)
    (depth : BRSyncDepth) (m : ClientSyncManager) : ClientOutput :=
  ((scanToDepthLocked params w depth m).andThen updateBlockNumber).andThen
    (updateTransactions w)

/-- `BRClientSyncManagerScan`. -/
def clientScan (params : BRChainParams) (w : Wallet)
    (m : ClientSyncManager) : ClientOutput :=
  clientScanToDepth params w BRSyncDepth.high m

/-- `BRClientSyncManagerSubmit`. -/
def clientSubmit (tx : Transaction) (m : ClientSyncManager) : ClientOutput :=
  if m.isConnected then
    let g := generateRid m
    { state := g.2
      events := []
      calls := [ClientCall.submitTransaction tx.serialized tx.txHash g.1]
      walletActions := [] }
  else
    { state := m
      events := [SyncEvent.txnSubmitted tx.txHash (-1)]
      calls := []
      walletActions := [] }

/-- `BRClientSyncManagerTickTock`. -/
def clientTickTock (w : Wallet) (m : ClientSyncManager) : ClientOutput :=
  (updateBlockNumber m).andThen (updateTransactions w)

/-- `BRClientSyncManagerAnnounceGetBlockNumber`. -/
def announceGetBlockNumber (rid : Int) (blockHeight : Nat)
    (m : ClientSyncManager) : ClientOutput :=
  if m.networkBlockHeight < blockHeight ∧ m.isConnected = true then
    { state := { m with networkBlockHeight := blockHeight }
      events := [SyncEvent.blockHeightUpdated blockHeight]
      calls := []
      walletActions := [] }
  else ClientOutput.skip m

/-- `BRClientSyncManagerAnnounceGetTransactionsItem`; `parse` is the
external `BRTransactionParse` codec, and announced heights and timestamps
are truncated to uint32 before being stored. -/
def announceGetTransactionsItem (parse : List Nat → Option Transaction)
    (w : Wallet) (rid : Int) (bytes : List Nat) (timestamp blockHeight : Nat)
    (m : ClientSyncManager) : ClientOutput :=
  match parse bytes with
  | none => ClientOutput.skip m
  | some t =>
      if t.isSigned = true ∧ rid = m.scanState.requestId ∧ m.isConnected = true then
        if w.hasTx t.txHash then
          { state := m
            events := []
            calls := []
            walletActions :=
              [WalletAction.updateTx t.txHash (wrap32 blockHeight) (wrap32 timestamp)] }
        else
          { state := m
            events := []
            calls := []
            walletActions :=
              [WalletAction.registerTx
                { t with timestamp := wrap32 timestamp, blockHeight := wrap32 blockHeight }] }
      else ClientOutput.skip m

/-- `BRClientSyncManagerAnnounceGetTransactionsDone`. -/
def announceGetTransactionsDone (w : Wallet) (rid : Int) (success : Bool)
    (m : ClientSyncManager) : ClientOutput :=
  if rid = m.scanState.requestId ∧ m.isConnected = true then
    if success then
      if (scanStateAdvanceAndGetNewAddresses m.scanState w).2.length ≠ 0 then
        { state := { m with scanState := (scanStateAdvanceAndGetNewAddresses m.scanState w).1 }
          events := []
          calls :=
            [ClientCall.getTransactions (scanStateAdvanceAndGetNewAddresses m.scanState w).2
              (scanStateAdvanceAndGetNewAddresses m.scanState w).1.begBlockNumber
              (scanStateAdvanceAndGetNewAddresses m.scanState w).1.endBlockNumber rid]
          walletActions := [] }
      else
        { state :=
            { m with
                syncedBlockHeight :=
                  scanStateGetSyncedBlockNumber (scanStateAdvanceAndGetNewAddresses m.scanState w).1
                scanState := scanStateWipe }
          events :=
            if (scanStateAdvanceAndGetNewAddresses m.scanState w).1.isFullScan then
              [SyncEvent.syncStopped 0]
            else []
          calls := []
          walletActions := [] }
    else
      { state := { m with scanState := scanStateWipe }
        events := if m.scanState.isFullScan then [SyncEvent.syncStopped (-1)] else []
        calls := []
        walletActions := [] }
  else ClientOutput.skip m

/-- `BRClientSyncManagerAnnounceSubmitTransaction`. -/
def announceSubmitTransaction (w : Wallet) (tx : Transaction) (error : Int)
    (m : ClientSyncManager) : ClientOutput :=
  { state := m
    events := [SyncEvent.txnSubmitted tx.txHash error]
    calls := []
    walletActions :=
      if error = 0 ∧ w.hasTx tx.txHash = false then [WalletAction.registerTx tx] else [] }

/-- The client-mode operations of the dispatcher surface, each carrying the
snapshot of the external collaborators it reads at call time. -/
inductive ClientOp where
  | connect (w : Wallet)
  | disconnect
  | scan (params : BRChainParams) (w : Wallet)
  | scanToDepth (params : BRChainParams) (w : Wallet) (depth : BRSyncDepth)
  | submit (tx : Transaction)
  | tickTock (w : Wallet)
  | announceGetBlockNumber (rid : Int) (blockHeight : Nat)
  | announceGetTransactionsItem (parse : List Nat → Option Transaction)
      (w : Wallet) (rid : Int) (bytes : List Nat) (timestamp blockHeight : Nat)
  | announceGetTransactionsDone (w : Wallet) (rid : Int) (success : Bool)
  | announceSubmitTransaction (w : Wallet) (tx : Transaction) (error : Int)

/-- One dispatcher call on a client-mode manager. -/
def clientStep (op : ClientOp) (m : ClientSyncManager) : ClientOutput :=
  match op with
  | ClientOp.connect w => clientConnect w m
  | ClientOp.disconnect => clientDisconnect m
  | ClientOp.scan params w => clientScan params w m
  | ClientOp.scanToDepth params w depth => clientScanToDepth params w depth m
  | ClientOp.submit tx => clientSubmit tx m
  | ClientOp.tickTock w => clientTickTock w m
  | ClientOp.announceGetBlockNumber rid h => announceGetBlockNumber rid h m
  | ClientOp.announceGetTransactionsItem parse w rid bytes ts h =>
      announceGetTransactionsItem parse w rid bytes ts h m
  | ClientOp.announceGetTransactionsDone w rid success =>
      announceGetTransactionsDone w rid success m
  | ClientOp.announceSubmitTransaction w tx error =>
      announceSubmitTransaction w tx error m

/-- The state after a sequence of client-mode operations. -/
def clientRun (ops : List ClientOp) (m : ClientSyncManager) : ClientSyncManager :=
  match ops with
  | [] => m
  | op :: rest => clientRun rest (clientStep op m).state

/-- The request id carried by a client callback invocation. -/
def ClientCall.rid : ClientCall → Int
  | ClientCall.getBlockNumber rid => rid
  | ClientCall.getTransactions _ _ _ rid => rid
  | ClientCall.submitTransaction _ _ rid => rid

/-- The request ids an output hands to the client, in call order. -/
def ClientOutput.rids (o : ClientOutput) : List Int :=
  o.calls.map ClientCall.rid

/-- All request ids handed to the client callbacks along a run, in order. -/
def clientRunRids (ops : List ClientOp) (m : ClientSyncManager) : List Int :=
  match ops with
  | [] => []
  | op :: rest => (clientStep op m).rids ++ clientRunRids rest (clientStep op m).state

/-- The request ids of the calls of one step that allocate a fresh id: every
call except the `getTransactions` re-issue of `announceGetTransactionsDone`,
which reuses its scan's id. -/
def clientStepFreshRids (op : ClientOp) (m : ClientSyncManager) : List Int :=
  match op with
  | ClientOp.announceGetTransactionsDone _ _ _ => []
  | _ => (clientStep op m).rids

/-- The freshly allocated request ids handed to the client along a run. -/
def clientRunFreshRids (ops : List ClientOp) (m : ClientSyncManager) : List Int :=
  match ops with
  | [] => []
  | op :: rest =>
      clientStepFreshRids op m ++ clientRunFreshRids rest (clientStep op m).state

/-- The mutable state of `struct BRPeerSyncManagerStruct`. -/
structure PeerSyncManager where
  networkBlockHeight : Nat
  isConnected : Bool
  isFullScan : Bool
  deriving Repr, DecidableEq

/-- `_BRPeerSyncManagerTxStatusUpdate`, as a function of the peer manager's
connect status (`BRPeerStatusDisconnected` or not) and last block height at
the moment of the callback. -/
def peerTxStatusUpdate (peerConnected : Bool) (peerLastBlockHeight : Nat)
    (m : PeerSyncManager) : PeerSyncManager × List SyncEvent :=
  let needSyncStoppedEvent : Bool :=
    peerConnected = false ∧ m.isConnected = true ∧ m.isFullScan = true
  let needDisconnectionEvent : Bool :=
    peerConnected = false ∧ m.isConnected = true
  let needBlockHeightEvent : Bool := m.networkBlockHeight < peerLastBlockHeight
  ({ networkBlockHeight := max peerLastBlockHeight m.networkBlockHeight
     isConnected := if needDisconnectionEvent then false else m.isConnected
     isFullScan := if needSyncStoppedEvent then false else m.isFullScan },
    (if needBlockHeightEvent then [SyncEvent.blockHeightUpdated peerLastBlockHeight] else []) ++
      (if needSyncStoppedEvent then [SyncEvent.syncStopped 0] else []) ++
      (if needDisconnectionEvent then [SyncEvent.disconnected] else []) ++
      [SyncEvent.txnsUpdated])

/-- `BRClientSyncManagerGetBlockHeight`. -/
def clientGetBlockHeight (m : ClientSyncManager) : Nat :=
  m.networkBlockHeight

/-- A well-formed client response to `announceGetTransactionsDone` never
carries the reserved request id 0 (0 means "no scan"); the other operations
are unrestricted. -/
def ClientOp.doneRidNonzero : ClientOp → Prop
  | ClientOp.announceGetTransactionsDone _ rid _ => rid ≠ 0
  | _ => True

/-- The request-id invariant of a client-mode manager: the generator is
non-negative and an in-progress scan's id is positive and was produced by
the generator. -/
def RidInv (m : ClientSyncManager) : Prop :=
  0 ≤ m.requestIdGenerator ∧
    (m.scanState.requestId = 0 ∨
      (0 < m.scanState.requestId ∧ m.scanState.requestId ≤ m.requestIdGenerator))

/-- Modelled from the spec's words, for comparison with
`_getLastConfirmedSendTxHeight`: the height of the wallet's most recent
valid confirmed send transaction, where the spec sentence reads "at least
`CONFIRMATION_BLOCK_COUNT` = 6 blocks deep relative to `networkBlockHeight`",
i.e. `blockHeight + CONFIRMATION_BLOCK_COUNT ≤ networkBlockHeight`. -/
def lastConfirmedSendHeightSpec (txs : List WalletTx) (lastBlockHeight : Nat) : Nat :=
  ((txs.filter (fun t =>
      decide (t.isValid = true ∧ t.amountSent ≠ 0 ∧ t.blockHeight ≠ TX_UNCONFIRMED ∧
        t.blockHeight + CONFIRMATION_BLOCK_COUNT ≤ lastBlockHeight))).map
    WalletTx.blockHeight).foldr max 0

/-- The confirmed-send height the code actually computes, as a filter-max:
valid sends strictly more than `CONFIRMATION_BLOCK_COUNT` blocks below
`lastBlockHeight` (see `getLastConfirmedSendTxHeight_eq_strict`). -/
def lastConfirmedSendHeightStrict (txs : List WalletTx) (lastBlockHeight : Nat) : Nat :=
  ((txs.filter (fun t =>
      decide (t.isValid = true ∧ t.amountSent ≠ 0 ∧ t.blockHeight ≠ TX_UNCONFIRMED ∧
        t.blockHeight < lastBlockHeight - CONFIRMATION_BLOCK_COUNT))).map
    WalletTx.blockHeight).foldr max 0

/-! ### Concrete fixtures used by witnesses and counterexamples -/

/-- A wallet with first-unused pair `("e1", "i1")` and two addresses. -/
def wA : Wallet :=
  { txs := []
    firstUnusedExternal := "e1"
    firstUnusedInternal := "i1"
    allAddrs := ["e1", "i1"]
    legacy := fun a => String.append a "L"
    hasTx := fun _ => false }

/-- `wA` after gap-limit discovery moved the first-unused external address. -/
def wB : Wallet :=
  { txs := []
    firstUnusedExternal := "e2"
    firstUnusedInternal := "i1"
    allAddrs := ["e1", "e2", "i1"]
    legacy := fun a => String.append a "L"
    hasTx := fun _ => false }

/-- A wallet holding one valid confirmed send at height 94. -/
def w7 : Wallet :=
  { txs := [{ blockHeight := 94, isValid := true, amountSent := 5 }]
    firstUnusedExternal := "e1"
    firstUnusedInternal := "i1"
    allAddrs := ["e1"]
    legacy := fun a => String.append a "L"
    hasTx := fun _ => false }

/-- Chain parameters whose checkpoint before any time has height 500. -/
def pA : BRChainParams :=
  { checkpointBefore := fun _ => some { height := 500, timestamp := 0 }
    checkpointBeforeBlockNumber := fun _ => none }

/-- A scan state mid-scan: request id 2, window `[100, 245)`, full scan. -/
def ssC1 : ScanState :=
  { requestId := 2
    lastExternalAddress := "e1"
    lastInternalAddress := "i1"
    knownAddresses := ["e1", "i1", "e1L", "i1L"]
    begBlockNumber := 100
    endBlockNumber := 245
    isFullScan := true }

/-- A connected manager with the `ssC1` scan in progress. -/
def mC1 : ClientSyncManager :=
  { initBlockHeight := 100
    networkBlockHeight := 244
    syncedBlockHeight := 100
    isConnected := true
    requestIdGenerator := 2
    scanState := ssC1 }

/-- A connected, idle manager (no scan in progress). -/
def mIdle : ClientSyncManager :=
  { initBlockHeight := 100
    networkBlockHeight := 244
    syncedBlockHeight := 100
    isConnected := true
    requestIdGenerator := 0
    scanState := scanStateWipe }

/-- A connected, idle manager with a wallet send confirmed at height 94 in
range (`initBlockHeight` 10, `networkBlockHeight` 100). -/
def m7 : ClientSyncManager :=
  { initBlockHeight := 10
    networkBlockHeight := 100
    syncedBlockHeight := 90
    isConnected := true
    requestIdGenerator := 0
    scanState := scanStateWipe }

/-- A freshly constructed, disconnected manager (as produced by
`clientSyncManagerNew` with checkpoint height 100 and block height 244). -/
def m9 : ClientSyncManager :=
  { initBlockHeight := 100
    networkBlockHeight := 244
    syncedBlockHeight := 100
    isConnected := false
    requestIdGenerator := 0
    scanState := scanStateWipe }

/-- Connect, let the timer fire once mid-scan, then complete the scan with
gap-limit growth: the completion re-issues `getTransactions` with the
original scan id 2 after id 3 was already handed out. -/
def ops9 : List ClientOp :=
  [ClientOp.connect wA, ClientOp.tickTock wA,
    ClientOp.announceGetTransactionsDone wB 2 true]

/-- A signed transaction fixture. -/
def txT : Transaction :=
  { txHash := 7, serialized := [1, 2, 3], isSigned := true, timestamp := 0, blockHeight := 0 }

/-- An unsigned transaction fixture. -/
def txU : Transaction :=
  { txHash := 7, serialized := [1], isSigned := false, timestamp := 0, blockHeight := 0 }

/-- A codec that parses `[1]` into the unsigned transaction `txU` and
rejects everything else. -/
def parseFix : List Nat → Option Transaction :=
  fun bytes => if bytes = [1] then some txU else none

/-! ### Helper lemmas: preserved fields, generator monotonicity, rid bounds -/

theorem wrap64_eq (n : Nat) : wrap64 n = n % UINT64_MOD := by
  unfold wrap64
  split
  · exact (Nat.mod_eq_of_lt (by assumption)).symm
  · rfl

theorem wrap32_eq (n : Nat) : wrap32 n = n % UINT32_MOD := by
  unfold wrap32
  split
  · exact (Nat.mod_eq_of_lt (by assumption)).symm
  · rfl

/-- On uint64 inputs the guarded decrement is exactly the uint64
`endBlockNumber - 1`. -/
theorem scanStateGetSyncedBlockNumber_eq_mod (s : ScanState)
    (h : s.endBlockNumber < UINT64_MOD) :
    scanStateGetSyncedBlockNumber s = (s.endBlockNumber + (UINT64_MOD - 1)) % UINT64_MOD := by
  unfold scanStateGetSyncedBlockNumber UINT64_MOD at *
  split <;> omega

/-- On uint32 inputs the guarded subtraction is exactly the uint32
`earliestKeyTime - ONE_WEEK_IN_SECONDS`. -/
theorem keyTimeMinusOneWeek_eq_mod (t : Nat) (h : t < UINT32_MOD) :
    keyTimeMinusOneWeek t = (t + (UINT32_MOD - ONE_WEEK_IN_SECONDS)) % UINT32_MOD := by
  unfold keyTimeMinusOneWeek ONE_WEEK_IN_SECONDS UINT32_MOD at *
  split <;> omega


/-- Fields every operation fragment preserves or moves monotonically:
`initBlockHeight` is constant, `networkBlockHeight` and
`requestIdGenerator` never decrease. -/
def PreservesCore (f : ClientSyncManager → ClientOutput) : Prop :=
  ∀ m : ClientSyncManager,
    (f m).state.initBlockHeight = m.initBlockHeight ∧
    m.networkBlockHeight ≤ (f m).state.networkBlockHeight ∧
    m.requestIdGenerator ≤ (f m).state.requestIdGenerator

/-- Every rid the fragment hands out is freshly allocated: strictly above
the incoming generator, at most the outgoing generator, and the handed list
is strictly increasing. -/
def FreshRids (f : ClientSyncManager → ClientOutput) : Prop :=
  ∀ m : ClientSyncManager,
    (∀ r ∈ (f m).rids, m.requestIdGenerator < r ∧ r ≤ (f m).state.requestIdGenerator) ∧
    List.Pairwise (· < ·) (f m).rids

theorem ClientOutput.andThen_state (o : ClientOutput)
    (f : ClientSyncManager → ClientOutput) :
    (o.andThen f).state = (f o.state).state := rfl

theorem ClientOutput.andThen_rids (o : ClientOutput)
    (f : ClientSyncManager → ClientOutput) :
    (o.andThen f).rids = o.rids ++ (f o.state).rids := by
  simp [ClientOutput.rids, ClientOutput.andThen]

theorem preservesCore_andThen {f g : ClientSyncManager → ClientOutput}
    (hf : PreservesCore f) (hg : PreservesCore g) :
    PreservesCore (fun m => (f m).andThen g) := by
  intro m
  obtain ⟨hf1, hf2, hf3⟩ := hf m
  obtain ⟨hg1, hg2, hg3⟩ := hg (f m).state
  refine ⟨?_, ?_, ?_⟩
  · rw [ClientOutput.andThen_state, hg1, hf1]
  · exact le_trans hf2 (by rw [ClientOutput.andThen_state]; exact hg2)
  · exact le_trans hf3 (by rw [ClientOutput.andThen_state]; exact hg3)

theorem freshRids_andThen {f g : ClientSyncManager → ClientOutput}
    (hfc : PreservesCore f) (hgc : PreservesCore g)
    (hf : FreshRids f) (hg : FreshRids g) :
    FreshRids (fun m => (f m).andThen g) := by
  intro m
  obtain ⟨hfb, hfp⟩ := hf m
  obtain ⟨hgb, hgp⟩ := hg (f m).state
  have hfg : m.requestIdGenerator ≤ (f m).state.requestIdGenerator := (hfc m).2.2
  have hgg : (f m).state.requestIdGenerator ≤ ((f m).andThen g).state.requestIdGenerator := by
    rw [ClientOutput.andThen_state]; exact (hgc (f m).state).2.2
  constructor
  · intro r hr
    rw [ClientOutput.andThen_rids] at hr
    rcases List.mem_append.mp hr with h | h
    · exact ⟨(hfb r h).1, le_trans (hfb r h).2 hgg⟩
    · refine ⟨lt_of_le_of_lt hfg (hgb r h).1, ?_⟩
      rw [ClientOutput.andThen_state]
      exact (hgb r h).2
  · rw [ClientOutput.andThen_rids]
    refine List.pairwise_append.mpr ⟨hfp, hgp, ?_⟩
    intro a ha b hb
    exact lt_of_le_of_lt (hfb a ha).2 (hgb b hb).1

theorem preservesCore_skip : PreservesCore ClientOutput.skip := by
  intro m; exact ⟨rfl, le_refl _, le_refl _⟩

theorem preservesCore_updateBlockNumber : PreservesCore updateBlockNumber := by
  intro m
  unfold updateBlockNumber generateRid ClientOutput.skip
  split <;> simp

theorem freshRids_updateBlockNumber : FreshRids updateBlockNumber := by
  intro m
  unfold updateBlockNumber generateRid ClientOutput.skip
  split <;> simp [ClientOutput.rids, ClientCall.rid]

theorem preservesCore_updateTransactions (w : Wallet) :
    PreservesCore (updateTransactions w) := by
  intro m
  unfold updateTransactions generateRid ClientOutput.skip
  split <;> simp

theorem freshRids_updateTransactions (w : Wallet) :
    FreshRids (updateTransactions w) := by
  intro m
  unfold updateTransactions generateRid ClientOutput.skip
  split <;> simp [ClientOutput.rids, ClientCall.rid]

theorem preservesCore_connectLocked : PreservesCore connectLocked := by
  intro m
  unfold connectLocked ClientOutput.skip
  split <;> simp

theorem freshRids_connectLocked : FreshRids connectLocked := by
  intro m
  unfold connectLocked ClientOutput.skip
  split <;> simp [ClientOutput.rids]

theorem preservesCore_clientConnect (w : Wallet) :
    PreservesCore (clientConnect w) := by
  have h :
      PreservesCore (fun m =>
        ((connectLocked m).andThen updateBlockNumber).andThen (updateTransactions w)) :=
    preservesCore_andThen
      (preservesCore_andThen preservesCore_connectLocked preservesCore_updateBlockNumber)
      (preservesCore_updateTransactions w)
  exact h

theorem freshRids_clientConnect (w : Wallet) : FreshRids (clientConnect w) := by
  have h :
      FreshRids (fun m =>
        ((connectLocked m).andThen updateBlockNumber).andThen (updateTransactions w)) :=
    freshRids_andThen
      (preservesCore_andThen preservesCore_connectLocked preservesCore_updateBlockNumber)
      (preservesCore_updateTransactions w)
      (freshRids_andThen preservesCore_connectLocked preservesCore_updateBlockNumber
        freshRids_connectLocked freshRids_updateBlockNumber)
      (freshRids_updateTransactions w)
  exact h

theorem preservesCore_clientDisconnect : PreservesCore clientDisconnect := by
  intro m
  unfold clientDisconnect ClientOutput.skip
  split <;> simp

theorem freshRids_clientDisconnect : FreshRids clientDisconnect := by
  intro m
  unfold clientDisconnect ClientOutput.skip
  split <;> simp [ClientOutput.rids]

theorem preservesCore_scanToDepthLocked (params : BRChainParams) (w : Wallet)
    (depth : BRSyncDepth) : PreservesCore (scanToDepthLocked params w depth) := by
  intro m
  unfold scanToDepthLocked ClientOutput.skip
  split <;> simp

theorem freshRids_scanToDepthLocked (params : BRChainParams) (w : Wallet)
    (depth : BRSyncDepth) : FreshRids (scanToDepthLocked params w depth) := by
  intro m
  unfold scanToDepthLocked ClientOutput.skip
  split <;> simp [ClientOutput.rids]

theorem preservesCore_clientScanToDepth (params : BRChainParams) (w : Wallet)
    (depth : BRSyncDepth) : PreservesCore (clientScanToDepth params w depth) := by
  have h :
      PreservesCore (fun m =>
        ((scanToDepthLocked params w depth m).andThen updateBlockNumber).andThen
          (updateTransactions w)) :=
    preservesCore_andThen
      (preservesCore_andThen (preservesCore_scanToDepthLocked params w depth)
        preservesCore_updateBlockNumber)
      (preservesCore_updateTransactions w)
  exact h

theorem freshRids_clientScanToDepth (params : BRChainParams) (w : Wallet)
    (depth : BRSyncDepth) : FreshRids (clientScanToDepth params w depth) := by
  have h :
      FreshRids (fun m =>
        ((scanToDepthLocked params w depth m).andThen updateBlockNumber).andThen
          (updateTransactions w)) :=
    freshRids_andThen
      (preservesCore_andThen (preservesCore_scanToDepthLocked params w depth)
        preservesCore_updateBlockNumber)
      (preservesCore_updateTransactions w)
      (freshRids_andThen (preservesCore_scanToDepthLocked params w depth)
        preservesCore_updateBlockNumber (freshRids_scanToDepthLocked params w depth)
        freshRids_updateBlockNumber)
      (freshRids_updateTransactions w)
  exact h

theorem preservesCore_clientSubmit (tx : Transaction) :
    PreservesCore (clientSubmit tx) := by
  intro m
  unfold clientSubmit generateRid
  split <;> simp

theorem freshRids_clientSubmit (tx : Transaction) : FreshRids (clientSubmit tx) := by
  intro m
  unfold clientSubmit generateRid
  split <;> simp [ClientOutput.rids, ClientCall.rid]

theorem preservesCore_clientTickTock (w : Wallet) :
    PreservesCore (clientTickTock w) := by
  have h :
      PreservesCore (fun m => (updateBlockNumber m).andThen (updateTransactions w)) :=
    preservesCore_andThen preservesCore_updateBlockNumber (preservesCore_updateTransactions w)
  exact h

theorem freshRids_clientTickTock (w : Wallet) : FreshRids (clientTickTock w) := by
  have h :
      FreshRids (fun m => (updateBlockNumber m).andThen (updateTransactions w)) :=
    freshRids_andThen preservesCore_updateBlockNumber (preservesCore_updateTransactions w)
      freshRids_updateBlockNumber (freshRids_updateTransactions w)
  exact h

theorem preservesCore_announceGetBlockNumber (rid : Int) (h : Nat) :
    PreservesCore (announceGetBlockNumber rid h) := by
  intro m
  unfold announceGetBlockNumber ClientOutput.skip
  split
  · rename_i hcond
    exact ⟨rfl, le_of_lt hcond.1, le_refl _⟩
  · exact ⟨rfl, le_refl _, le_refl _⟩

theorem freshRids_announceGetBlockNumber (rid : Int) (h : Nat) :
    FreshRids (announceGetBlockNumber rid h) := by
  intro m
  unfold announceGetBlockNumber ClientOutput.skip
  split <;> simp [ClientOutput.rids]

theorem preservesCore_announceGetTransactionsItem
    (parse : List Nat → Option Transaction) (w : Wallet) (rid : Int)
    (bytes : List Nat) (ts h : Nat) :
    PreservesCore (announceGetTransactionsItem parse w rid bytes ts h) := by
  intro m
  unfold announceGetTransactionsItem ClientOutput.skip
  rcases parse bytes with _ | t
  · exact ⟨rfl, le_refl _, le_refl _⟩
  · simp only
    split
    · split <;> exact ⟨rfl, le_refl _, le_refl _⟩
    · exact ⟨rfl, le_refl _, le_refl _⟩

theorem freshRids_announceGetTransactionsItem
    (parse : List Nat → Option Transaction) (w : Wallet) (rid : Int)
    (bytes : List Nat) (ts h : Nat) :
    FreshRids (announceGetTransactionsItem parse w rid bytes ts h) := by
  intro m
  unfold announceGetTransactionsItem ClientOutput.skip
  rcases parse bytes with _ | t
  · simp [ClientOutput.rids]
  · simp only
    split
    · split <;> simp [ClientOutput.rids]
    · simp [ClientOutput.rids]

theorem preservesCore_announceGetTransactionsDone (w : Wallet) (rid : Int)
    (success : Bool) : PreservesCore (announceGetTransactionsDone w rid success) := by
  intro m
  unfold announceGetTransactionsDone ClientOutput.skip
  split
  · split
    · split
      · exact ⟨rfl, le_refl _, le_refl _⟩
      · exact ⟨rfl, le_refl _, le_refl _⟩
    · exact ⟨rfl, le_refl _, le_refl _⟩
  · exact ⟨rfl, le_refl _, le_refl _⟩

theorem preservesCore_announceSubmitTransaction (w : Wallet) (tx : Transaction)
    (error : Int) : PreservesCore (announceSubmitTransaction w tx error) := by
  intro m
  unfold announceSubmitTransaction
  exact ⟨rfl, le_refl _, le_refl _⟩

theorem freshRids_announceSubmitTransaction (w : Wallet) (tx : Transaction)
    (error : Int) : FreshRids (announceSubmitTransaction w tx error) := by
  intro m
  unfold announceSubmitTransaction
  simp [ClientOutput.rids]

theorem preservesCore_clientStep (op : ClientOp) : PreservesCore (clientStep op) := by
  cases op with
  | connect w => exact preservesCore_clientConnect w
  | disconnect => exact preservesCore_clientDisconnect
  | scan params w => exact preservesCore_clientScanToDepth params w BRSyncDepth.high
  | scanToDepth params w depth => exact preservesCore_clientScanToDepth params w depth
  | submit tx => exact preservesCore_clientSubmit tx
  | tickTock w => exact preservesCore_clientTickTock w
  | announceGetBlockNumber rid h => exact preservesCore_announceGetBlockNumber rid h
  | announceGetTransactionsItem parse w rid bytes ts h =>
      exact preservesCore_announceGetTransactionsItem parse w rid bytes ts h
  | announceGetTransactionsDone w rid success =>
      exact preservesCore_announceGetTransactionsDone w rid success
  | announceSubmitTransaction w tx error =>
      exact preservesCore_announceSubmitTransaction w tx error

theorem freshRids_clientStepFreshRids (op : ClientOp) (m : ClientSyncManager) :
    (∀ r ∈ clientStepFreshRids op m,
        m.requestIdGenerator < r ∧ r ≤ (clientStep op m).state.requestIdGenerator) ∧
      List.Pairwise (· < ·) (clientStepFreshRids op m) := by
  cases op with
  | connect w => exact freshRids_clientConnect w m
  | disconnect => exact freshRids_clientDisconnect m
  | scan params w => exact freshRids_clientScanToDepth params w BRSyncDepth.high m
  | scanToDepth params w depth => exact freshRids_clientScanToDepth params w depth m
  | submit tx => exact freshRids_clientSubmit tx m
  | tickTock w => exact freshRids_clientTickTock w m
  | announceGetBlockNumber rid h => exact freshRids_announceGetBlockNumber rid h m
  | announceGetTransactionsItem parse w rid bytes ts h =>
      exact freshRids_announceGetTransactionsItem parse w rid bytes ts h m
  | announceGetTransactionsDone w rid success =>
      exact ⟨fun r hr => absurd hr (List.not_mem_nil r), List.Pairwise.nil⟩
  | announceSubmitTransaction w tx error =>
      exact freshRids_announceSubmitTransaction w tx error m

theorem ridInv_updateBlockNumber (m : ClientSyncManager) (h : RidInv m) :
    RidInv (updateBlockNumber m).state := by
  unfold RidInv at h ⊢
  unfold updateBlockNumber generateRid ClientOutput.skip
  split <;> ((try dsimp only); omega)

theorem ridInv_updateTransactions (w : Wallet) (m : ClientSyncManager)
    (h : RidInv m) : RidInv (updateTransactions w m).state := by
  unfold RidInv at h ⊢
  unfold updateTransactions generateRid ClientOutput.skip
  split <;> ((try dsimp only [scanStateInit]); omega)

theorem ridInv_andThen {f g : ClientSyncManager → ClientOutput}
    (hf : ∀ m, RidInv m → RidInv (f m).state)
    (hg : ∀ m, RidInv m → RidInv (g m).state) :
    ∀ m, RidInv m → RidInv ((f m).andThen g).state := by
  intro m h
  rw [ClientOutput.andThen_state]
  exact hg (f m).state (hf m h)

theorem ridInv_connectLocked (m : ClientSyncManager) (h : RidInv m) :
    RidInv (connectLocked m).state := by
  unfold RidInv at h ⊢
  unfold connectLocked ClientOutput.skip
  split <;> ((try dsimp only); omega)

theorem ridInv_scanToDepthLocked (params : BRChainParams) (w : Wallet)
    (depth : BRSyncDepth) (m : ClientSyncManager) (h : RidInv m) :
    RidInv (scanToDepthLocked params w depth m).state := by
  unfold RidInv at h ⊢
  unfold scanToDepthLocked ClientOutput.skip scanStateWipe
  split <;> ((try dsimp only); omega)

theorem ridInv_clientConnect (w : Wallet) (m : ClientSyncManager) (h : RidInv m) :
    RidInv (clientConnect w m).state := by
  refine ridInv_andThen (f := fun m => (connectLocked m).andThen updateBlockNumber)
    (g := updateTransactions w) ?_ (fun m h => ridInv_updateTransactions w m h) m h
  exact ridInv_andThen (f := connectLocked) (g := updateBlockNumber)
    (fun m h => ridInv_connectLocked m h) (fun m h => ridInv_updateBlockNumber m h)

theorem ridInv_clientScanToDepth (params : BRChainParams) (w : Wallet)
    (depth : BRSyncDepth) (m : ClientSyncManager) (h : RidInv m) :
    RidInv (clientScanToDepth params w depth m).state := by
  refine ridInv_andThen
    (f := fun m => (scanToDepthLocked params w depth m).andThen updateBlockNumber)
    (g := updateTransactions w) ?_ (fun m h => ridInv_updateTransactions w m h) m h
  exact ridInv_andThen (f := scanToDepthLocked params w depth) (g := updateBlockNumber)
    (fun m h => ridInv_scanToDepthLocked params w depth m h)
    (fun m h => ridInv_updateBlockNumber m h)

theorem ridInv_clientDisconnect (m : ClientSyncManager) (h : RidInv m) :
    RidInv (clientDisconnect m).state := by
  unfold RidInv at h ⊢
  unfold clientDisconnect ClientOutput.skip scanStateWipe
  split <;> ((try dsimp only); omega)

theorem ridInv_clientSubmit (tx : Transaction) (m : ClientSyncManager) (h : RidInv m) :
    RidInv (clientSubmit tx m).state := by
  unfold RidInv at h ⊢
  unfold clientSubmit generateRid
  split <;> ((try dsimp only); omega)

theorem ridInv_announceGetBlockNumber (rid : Int) (hgt : Nat) (m : ClientSyncManager)
    (h : RidInv m) : RidInv (announceGetBlockNumber rid hgt m).state := by
  unfold RidInv at h ⊢
  unfold announceGetBlockNumber ClientOutput.skip
  split <;> ((try dsimp only); omega)

theorem ridInv_announceGetTransactionsItem (parse : List Nat → Option Transaction)
    (w : Wallet) (rid : Int) (bytes : List Nat) (ts hgt : Nat) (m : ClientSyncManager)
    (h : RidInv m) : RidInv (announceGetTransactionsItem parse w rid bytes ts hgt m).state := by
  unfold RidInv at h ⊢
  unfold announceGetTransactionsItem ClientOutput.skip
  rcases parse bytes with _ | t
  · dsimp only
    omega
  · simp only
    split
    · split <;> ((try dsimp only); omega)
    · dsimp only
      omega

theorem ridInv_announceGetTransactionsDone (w : Wallet) (rid : Int) (success : Bool)
    (m : ClientSyncManager) (h : RidInv m) :
    RidInv (announceGetTransactionsDone w rid success m).state := by
  have hid :
      (scanStateAdvanceAndGetNewAddresses m.scanState w).1.requestId =
        m.scanState.requestId := by
    unfold scanStateAdvanceAndGetNewAddresses
    split
    · rfl
    · rfl
  unfold RidInv at h ⊢
  unfold announceGetTransactionsDone ClientOutput.skip scanStateWipe
  split
  · split
    · split
      · dsimp only
        rw [hid]
        omega
      · ((try dsimp only); omega)
    · ((try dsimp only); omega)
  · dsimp only
    omega

theorem ridInv_announceSubmitTransaction (w : Wallet) (tx : Transaction) (error : Int)
    (m : ClientSyncManager) (h : RidInv m) :
    RidInv (announceSubmitTransaction w tx error m).state := by
  unfold RidInv at h ⊢
  unfold announceSubmitTransaction
  dsimp only
  omega

theorem ridInv_clientStep (op : ClientOp) (m : ClientSyncManager)
    (h : RidInv m) : RidInv (clientStep op m).state := by
  cases op with
  | connect w => exact ridInv_clientConnect w m h
  | disconnect => exact ridInv_clientDisconnect m h
  | scan params w => exact ridInv_clientScanToDepth params w BRSyncDepth.high m h
  | scanToDepth params w depth => exact ridInv_clientScanToDepth params w depth m h
  | submit tx => exact ridInv_clientSubmit tx m h
  | tickTock w =>
      exact ridInv_andThen (f := updateBlockNumber) (g := updateTransactions w)
        (fun m h => ridInv_updateBlockNumber m h)
        (fun m h => ridInv_updateTransactions w m h) m h
  | announceGetBlockNumber rid hgt => exact ridInv_announceGetBlockNumber rid hgt m h
  | announceGetTransactionsItem parse w rid bytes ts hgt =>
      exact ridInv_announceGetTransactionsItem parse w rid bytes ts hgt m h
  | announceGetTransactionsDone w rid success =>
      exact ridInv_announceGetTransactionsDone w rid success m h
  | announceSubmitTransaction w tx error =>
      exact ridInv_announceSubmitTransaction w tx error m h

theorem ridsPos_announceGetTransactionsDone (w : Wallet) (rid : Int) (success : Bool)
    (m : ClientSyncManager) (hinv : RidInv m) (hrid : rid ≠ 0) :
    ∀ r ∈ (announceGetTransactionsDone w rid success m).rids, 0 < r := by
  intro r hr
  unfold announceGetTransactionsDone ClientOutput.skip at hr
  unfold ClientOutput.rids at hr
  split at hr
  · rename_i hcond
    have hpos : 0 < rid := by
      rcases hinv.2 with h0 | hp
      · exact absurd (hcond.1.trans h0) hrid
      · rw [hcond.1]
        exact hp.1
    split at hr
    · split at hr
      · simp [ClientCall.rid] at hr
        omega
      · simp at hr
    · simp at hr
  · simp at hr

theorem ridsPos_clientStep (op : ClientOp) (m : ClientSyncManager)
    (hinv : RidInv m) (hop : op.doneRidNonzero) :
    ∀ r ∈ (clientStep op m).rids, 0 < r := by
  have key : ∀ op2 : ClientOp, (∀ r ∈ clientStepFreshRids op2 m, 0 < r) := by
    intro op2 r hr
    have hb := (freshRids_clientStepFreshRids op2 m).1 r hr
    have h0 := hinv.1
    omega
  cases op with
  | announceGetTransactionsDone w rid success =>
      exact ridsPos_announceGetTransactionsDone w rid success m hinv hop
  | connect w => exact key (ClientOp.connect w)
  | disconnect => exact key ClientOp.disconnect
  | scan params w => exact key (ClientOp.scan params w)
  | scanToDepth params w depth => exact key (ClientOp.scanToDepth params w depth)
  | submit tx => exact key (ClientOp.submit tx)
  | tickTock w => exact key (ClientOp.tickTock w)
  | announceGetBlockNumber rid hgt => exact key (ClientOp.announceGetBlockNumber rid hgt)
  | announceGetTransactionsItem parse w rid bytes ts hgt =>
      exact key (ClientOp.announceGetTransactionsItem parse w rid bytes ts hgt)
  | announceSubmitTransaction w tx error =>
      exact key (ClientOp.announceSubmitTransaction w tx error)

theorem clientRun_initBlockHeight (ops : List ClientOp) (m : ClientSyncManager) :
    (clientRun ops m).initBlockHeight = m.initBlockHeight := by
  induction ops generalizing m with
  | nil => rfl
  | cons op rest ih =>
      unfold clientRun
      rw [ih]
      exact (preservesCore_clientStep op m).1

theorem clientRun_network_mono (ops : List ClientOp) (m : ClientSyncManager) :
    m.networkBlockHeight ≤ (clientRun ops m).networkBlockHeight := by
  induction ops generalizing m with
  | nil => exact le_refl _
  | cons op rest ih =>
      unfold clientRun
      exact le_trans (preservesCore_clientStep op m).2.1 (ih (clientStep op m).state)

theorem clientRun_gen_mono (ops : List ClientOp) (m : ClientSyncManager) :
    m.requestIdGenerator ≤ (clientRun ops m).requestIdGenerator := by
  induction ops generalizing m with
  | nil => exact le_refl _
  | cons op rest ih =>
      unfold clientRun
      exact le_trans (preservesCore_clientStep op m).2.2 (ih (clientStep op m).state)

theorem ridInv_clientRun (ops : List ClientOp) (m : ClientSyncManager)
    (h : RidInv m) : RidInv (clientRun ops m) := by
  induction ops generalizing m with
  | nil => exact h
  | cons op rest ih =>
      unfold clientRun
      exact ih (clientStep op m).state (ridInv_clientStep op m h)

theorem clientRunFreshRids_bounds (ops : List ClientOp) (m : ClientSyncManager) :
    List.Pairwise (· < ·) (clientRunFreshRids ops m) ∧
      ∀ r ∈ clientRunFreshRids ops m,
        m.requestIdGenerator < r ∧ r ≤ (clientRun ops m).requestIdGenerator := by
  induction ops generalizing m with
  | nil => exact ⟨List.Pairwise.nil, fun r hr => absurd hr (List.not_mem_nil r)⟩
  | cons op rest ih =>
      obtain ⟨hstepb, hstepp⟩ := freshRids_clientStepFreshRids op m
      obtain ⟨ihp, ihb⟩ := ih (clientStep op m).state
      have hrunGen := clientRun_gen_mono rest (clientStep op m).state
      constructor
      · unfold clientRunFreshRids
        refine List.pairwise_append.mpr ⟨hstepp, ihp, ?_⟩
        intro a ha b hb
        exact lt_of_le_of_lt (hstepb a ha).2 (ihb b hb).1
      · intro r hr
        unfold clientRunFreshRids at hr
        rcases List.mem_append.mp hr with h | h
        · refine ⟨(hstepb r h).1, ?_⟩
          unfold clientRun
          exact le_trans (hstepb r h).2 hrunGen
        · refine ⟨lt_of_le_of_lt (preservesCore_clientStep op m).2.2 (ihb r h).1, ?_⟩
          unfold clientRun
          exact (ihb r h).2


theorem wrap64_small (n : Nat) (h : n < UINT64_MOD) : wrap64 n = n := by
  unfold wrap64
  rw [if_pos h]

theorem wrap32_small (n : Nat) (h : n < UINT32_MOD) : wrap32 n = n := by
  unfold wrap32
  rw [if_pos h]

theorem updateBlockNumber_state_frame (m : ClientSyncManager) :
    (updateBlockNumber m).state.syncedBlockHeight = m.syncedBlockHeight ∧
      (updateBlockNumber m).state.isConnected = m.isConnected ∧
      (updateBlockNumber m).state.scanState = m.scanState := by
  unfold updateBlockNumber generateRid ClientOutput.skip
  split <;> exact ⟨rfl, rfl, rfl⟩

theorem updateTransactions_state_synced (w : Wallet) (m : ClientSyncManager) :
    (updateTransactions w m).state.syncedBlockHeight = m.syncedBlockHeight ∧
      (updateTransactions w m).state.isConnected = m.isConnected := by
  unfold updateTransactions generateRid ClientOutput.skip
  split <;> exact ⟨rfl, rfl⟩

theorem foldl_max_filter (P : WalletTx → Prop) [DecidablePred P] :
    ∀ (l : List WalletTx) (acc : Nat),
      l.foldl (fun scanHeight t =>
          if P t then max t.blockHeight scanHeight else scanHeight) acc =
        max acc (((l.filter (fun t => decide (P t))).map WalletTx.blockHeight).foldr max 0) := by
  intro l
  induction l with
  | nil => intro acc; simp
  | cons t rest ih =>
      intro acc
      by_cases hp : P t
      · rw [List.foldl_cons, if_pos hp, ih (max t.blockHeight acc)]
        rw [List.filter_cons, if_pos (by simp [hp]), List.map_cons, List.foldr_cons]
        rw [Nat.max_assoc, Nat.max_left_comm]
      · rw [List.foldl_cons, if_neg hp, ih acc]
        rw [List.filter_cons, if_neg (by simp [hp])]

theorem getLastConfirmedSendTxHeight_eq_strict (txs : List WalletTx) (lb : Nat) :
    getLastConfirmedSendTxHeight txs lb = lastConfirmedSendHeightStrict txs lb := by
  unfold getLastConfirmedSendTxHeight lastConfirmedSendHeightStrict
  by_cases hg : CONFIRMATION_BLOCK_COUNT ≤ lb ∧ txs ≠ []
  · rw [if_pos hg]
    rw [foldl_max_filter
      (fun t => t.isValid = true ∧ t.amountSent ≠ 0 ∧ t.blockHeight ≠ TX_UNCONFIRMED ∧
        t.blockHeight < lb - CONFIRMATION_BLOCK_COUNT) txs 0]
    rw [Nat.zero_max]
  · rw [if_neg hg]
    rcases Decidable.not_and_iff_or_not.mp hg with h | h
    · have hlb : lb < CONFIRMATION_BLOCK_COUNT := Nat.lt_of_not_le h
      have hnone : txs.filter (fun t =>
          decide (t.isValid = true ∧ t.amountSent ≠ 0 ∧ t.blockHeight ≠ TX_UNCONFIRMED ∧
            t.blockHeight < lb - CONFIRMATION_BLOCK_COUNT)) = [] := by
        refine List.filter_eq_nil.mpr ?_
        intro t ht
        simp only [decide_eq_true_eq, not_and]
        intro _ _ _
        unfold CONFIRMATION_BLOCK_COUNT at hlb ⊢
        omega
      rw [hnone]
      rfl
    · have htx : txs = [] := Decidable.not_not.mp h
      rw [htx]
      rfl

theorem clientRunRids_pos (ops : List ClientOp) (m : ClientSyncManager)
    (hinv : RidInv m) (hops : ∀ op ∈ ops, op.doneRidNonzero) :
    ∀ r ∈ clientRunRids ops m, 0 < r := by
  induction ops generalizing m with
  | nil => exact fun r hr => absurd hr (List.not_mem_nil r)
  | cons op rest ih =>
      intro r hr
      unfold clientRunRids at hr
      rcases List.mem_append.mp hr with h | h
      · exact ridsPos_clientStep op m hinv (hops op (List.mem_cons_self op rest)) r h
      · exact ih (clientStep op m).state (ridInv_clientStep op m hinv)
          (fun o ho => hops o (List.mem_cons_of_mem op ho)) r h


theorem scanStateAdvance_changed (s : ScanState) (w : Wallet)
    (h : w.firstUnusedExternal ≠ s.lastExternalAddress ∨
      w.firstUnusedInternal ≠ s.lastInternalAddress) :
    scanStateAdvanceAndGetNewAddresses s w =
      ({ s with
          lastExternalAddress := w.firstUnusedExternal
          lastInternalAddress := w.firstUnusedInternal
          knownAddresses := (updateWalletAddressSet s.knownAddresses w).1 },
        (updateWalletAddressSet s.knownAddresses w).2) := by
  unfold scanStateAdvanceAndGetNewAddresses
  rw [if_pos h]

theorem scanStateAdvance_same (s : ScanState) (w : Wallet)
    (h : ¬(w.firstUnusedExternal ≠ s.lastExternalAddress ∨
      w.firstUnusedInternal ≠ s.lastInternalAddress)) :
    scanStateAdvanceAndGetNewAddresses s w = (s, []) := by
  unfold scanStateAdvanceAndGetNewAddresses
  rw [if_neg h]

/-! ### The claims -/

/-- Claim C1: on `announceGetTransactionsDone(rid, success=true)` while
connected and with `rid` equal to the in-progress scan's request id, if the
re-derived first-unused external or internal address differs from the
captured pair, the manager re-issues `getTransactions` with the same `rid`,
the same `[beg, end)` window and the newly discovered addresses, advancing
the captured pair (and emits nothing); otherwise it sets
`syncedBlockHeight = endBlockNumber - 1`, emits `SyncStopped{0}` exactly
when the scan was a full scan, and wipes the scan state.  The coherence
hypothesis `hcoh` states what the real wallet guarantees: a moved
first-unused pair comes with newly derived addresses. -/
theorem claimC1 (w : Wallet) (rid : Int) (m : ClientSyncManager)
    (hconn : m.isConnected = true)
    (hrid : rid = m.scanState.requestId)
    (hin : m.scanState.requestId ≠ 0)
    (hend : m.scanState.endBlockNumber ≠ 0)
    (hcoh : (w.firstUnusedExternal ≠ m.scanState.lastExternalAddress ∨
        w.firstUnusedInternal ≠ m.scanState.lastInternalAddress) →
      (updateWalletAddressSet m.scanState.knownAddresses w).2 ≠ []) :
    ((w.firstUnusedExternal ≠ m.scanState.lastExternalAddress ∨
        w.firstUnusedInternal ≠ m.scanState.lastInternalAddress) →
      (announceGetTransactionsDone w rid true m).calls =
          [ClientCall.getTransactions
            (updateWalletAddressSet m.scanState.knownAddresses w).2
            m.scanState.begBlockNumber m.scanState.endBlockNumber rid] ∧
        (announceGetTransactionsDone w rid true m).events = [] ∧
        (announceGetTransactionsDone w rid true m).state.scanState.requestId =
          m.scanState.requestId ∧
        (announceGetTransactionsDone w rid true m).state.scanState.begBlockNumber =
          m.scanState.begBlockNumber ∧
        (announceGetTransactionsDone w rid true m).state.scanState.endBlockNumber =
          m.scanState.endBlockNumber ∧
        (announceGetTransactionsDone w rid true m).state.scanState.lastExternalAddress =
          w.firstUnusedExternal ∧
        (announceGetTransactionsDone w rid true m).state.scanState.lastInternalAddress =
          w.firstUnusedInternal) ∧
    (¬(w.firstUnusedExternal ≠ m.scanState.lastExternalAddress ∨
        w.firstUnusedInternal ≠ m.scanState.lastInternalAddress) →
      (announceGetTransactionsDone w rid true m).state.syncedBlockHeight =
          m.scanState.endBlockNumber - 1 ∧
        (announceGetTransactionsDone w rid true m).events =
          (if m.scanState.isFullScan then [SyncEvent.syncStopped 0] else []) ∧
        (announceGetTransactionsDone w rid true m).state.scanState = scanStateWipe ∧
        scanStateIsInProgress (announceGetTransactionsDone w rid true m).state.scanState =
          false) := by
  have hc : rid = m.scanState.requestId ∧ m.isConnected = true := ⟨hrid, hconn⟩
  constructor
  · intro hch
    have hne := hcoh hch
    have hlen : (updateWalletAddressSet m.scanState.knownAddresses w).2.length ≠ 0 := by
      intro h0
      exact hne (List.eq_nil_of_length_eq_zero h0)
    unfold announceGetTransactionsDone
    rw [if_pos hc, if_pos rfl, scanStateAdvance_changed m.scanState w hch]
    dsimp only
    rw [if_pos hlen]
    exact ⟨by rw [hrid], rfl, rfl, rfl, rfl, rfl, rfl⟩
  · intro hch
    unfold announceGetTransactionsDone
    rw [if_pos hc, if_pos rfl, scanStateAdvance_same m.scanState w hch]
    dsimp only
    rw [if_neg (by simp)]
    refine ⟨?_, rfl, rfl, rfl⟩
    dsimp only
    unfold scanStateGetSyncedBlockNumber
    rw [if_neg hend]

/-- Witness for C1 at concrete inputs: with wallet `wB` the first-unused
external address moved, so the manager re-issues the window `[100, 245)`
under the original id 2 with the new addresses; with wallet `wA` the pair is
stable, so the full scan completes with `syncedBlockHeight = 244` and
`SyncStopped{0}`. -/
theorem claimC1_witness :
    (announceGetTransactionsDone wB 2 true mC1).calls =
        [ClientCall.getTransactions ["e2", "e2L"] 100 245 2] ∧
      (announceGetTransactionsDone wA 2 true mC1).state.syncedBlockHeight = 244 ∧
      (announceGetTransactionsDone wA 2 true mC1).events = [SyncEvent.syncStopped 0] := by
  refine ⟨?_, ?_, ?_⟩
  · have h := (claimC1 wB 2 mC1 (by decide) (by decide) (by decide) (by decide)
      (by decide)).1 (by decide)
    exact h.1.trans (by decide)
  · have h := (claimC1 wA 2 mC1 (by decide) (by decide) (by decide) (by decide)
      (by decide)).2 (by decide)
    exact h.1.trans (by decide)
  · have h := (claimC1 wA 2 mC1 (by decide) (by decide) (by decide) (by decide)
      (by decide)).2 (by decide)
    exact h.2.1.trans (by decide)

/-- Claim C2: in client mode, `updateTransactions` run while connected with
no scan in progress builds the window `end = max(synced, network) + 1`,
`beg = min(synced, end - OFFSET)` (truncated subtraction), classifies the
scan as full exactly when `end - beg > OFFSET` with `OFFSET = 144`, and
emits `SyncStarted` exactly when the scan is full; when disconnected or a
scan is in progress it changes nothing and emits nothing. -/
theorem claimC2 (w : Wallet) (m : ClientSyncManager)
    (hcap : max m.syncedBlockHeight m.networkBlockHeight + 1 < UINT64_MOD) :
    (m.isConnected = true → scanStateIsInProgress m.scanState = false →
      (updateTransactions w m).state.scanState.endBlockNumber =
          max m.syncedBlockHeight m.networkBlockHeight + 1 ∧
        (updateTransactions w m).state.scanState.begBlockNumber =
          min m.syncedBlockHeight
            ((updateTransactions w m).state.scanState.endBlockNumber -
              BWM_BRD_SYNC_START_BLOCK_OFFSET) ∧
        ((updateTransactions w m).state.scanState.isFullScan = true ↔
          BWM_BRD_SYNC_START_BLOCK_OFFSET <
            (updateTransactions w m).state.scanState.endBlockNumber -
              (updateTransactions w m).state.scanState.begBlockNumber) ∧
        (updateTransactions w m).events =
          (if (updateTransactions w m).state.scanState.isFullScan then
            [SyncEvent.syncStarted]
          else [])) ∧
    (¬(m.isConnected = true ∧ scanStateIsInProgress m.scanState = false) →
      updateTransactions w m = ClientOutput.skip m) := by
  constructor
  · intro hconn hprog
    unfold updateTransactions generateRid
    rw [if_pos ⟨hprog, hconn⟩]
    unfold scanStateInit
    rw [wrap64_small _ hcap]
    dsimp only
    have harm :
        (if BWM_BRD_SYNC_START_BLOCK_OFFSET ≤
              max m.syncedBlockHeight m.networkBlockHeight + 1 then
          max m.syncedBlockHeight m.networkBlockHeight + 1 -
            BWM_BRD_SYNC_START_BLOCK_OFFSET
        else 0) =
          max m.syncedBlockHeight m.networkBlockHeight + 1 -
            BWM_BRD_SYNC_START_BLOCK_OFFSET := by
      split
      · rfl
      · unfold BWM_BRD_SYNC_START_BLOCK_OFFSET BWM_BRD_SYNC_DAYS_OFFSET
          BWM_MINUTES_PER_BLOCK at *
        omega
    refine ⟨rfl, ?_, ?_, rfl⟩
    · rw [harm]
    · simp only [decide_eq_true_eq]
  · intro hnot
    unfold updateTransactions ClientOutput.skip
    rw [if_neg (by tauto)]



/-- Witness for C2: on the idle connected manager (synced 100, network 244)
the window is `[100, 245)`, a full scan, announced by `SyncStarted`; on the
disconnected manager `m9` the call is a no-op. -/
theorem claimC2_witness :
    (updateTransactions wA mIdle).state.scanState.endBlockNumber = 245 ∧
      (updateTransactions wA mIdle).state.scanState.begBlockNumber = 100 ∧
      (updateTransactions wA mIdle).events = [SyncEvent.syncStarted] ∧
      updateTransactions wA m9 = ClientOutput.skip m9 := by
  refine ⟨?_, ?_, ?_, ?_⟩
  · exact ((claimC2 wA mIdle (by decide)).1 (by decide) (by decide)).1.trans (by decide)
  · exact ((claimC2 wA mIdle (by decide)).1 (by decide) (by decide)).2.1.trans (by decide)
  · exact ((claimC2 wA mIdle (by decide)).1 (by decide) (by decide)).2.2.2.trans (by decide)
  · exact (claimC2 wA m9 (by decide)).2 (by decide)

/-- Claim C3: `announceGetBlockNumber(rid, h)` accepts the height exactly
when `h > networkBlockHeight` and the manager is connected; when accepted it
stores `h` and emits one `BlockHeightUpdated{h}`, otherwise it changes
nothing and emits nothing; and the height reported by `getBlockHeight` is
monotone non-decreasing along any operation sequence. -/
theorem claimC3 (rid : Int) (h : Nat) (m : ClientSyncManager) (ops : List ClientOp) :
    (m.networkBlockHeight < h ∧ m.isConnected = true →
      (announceGetBlockNumber rid h m).state.networkBlockHeight = h ∧
        (announceGetBlockNumber rid h m).events = [SyncEvent.blockHeightUpdated h] ∧
        (announceGetBlockNumber rid h m).calls = [] ∧
        (announceGetBlockNumber rid h m).walletActions = []) ∧
    (¬(m.networkBlockHeight < h ∧ m.isConnected = true) →
      announceGetBlockNumber rid h m = ClientOutput.skip m) ∧
    clientGetBlockHeight m ≤ clientGetBlockHeight (clientRun ops m) := by
  refine ⟨?_, ?_, clientRun_network_mono ops m⟩
  · intro hc
    unfold announceGetBlockNumber
    rw [if_pos hc]
    exact ⟨rfl, rfl, rfl, rfl⟩
  · intro hc
    unfold announceGetBlockNumber ClientOutput.skip
    rw [if_neg hc]

/-- Witness for C3: height 250 is accepted by the connected manager at
height 244 and emitted once; 200 is rejected without any change; the
reported height is monotone across a run. -/
theorem claimC3_witness :
    (announceGetBlockNumber 5 250 mIdle).state.networkBlockHeight = 250 ∧
      announceGetBlockNumber 5 200 mIdle = ClientOutput.skip mIdle ∧
      clientGetBlockHeight mIdle ≤
        clientGetBlockHeight (clientRun [ClientOp.announceGetBlockNumber 5 250] mIdle) := by
  refine ⟨((claimC3 5 250 mIdle []).1 (by decide)).1,
    (claimC3 5 200 mIdle []).2.1 (by decide),
    (claimC3 5 250 mIdle [ClientOp.announceGetBlockNumber 5 250]).2.2⟩

/-- Claim C4: `disconnect` is a no-op when not connected; when connected it
clears the connection flag, emits `SyncStopped{-1}` exactly when a full scan
was active followed by `Disconnected`, and wipes the scan state, so no scan
is in progress afterwards. -/
theorem claimC4 (m : ClientSyncManager) :
    (m.isConnected = false → clientDisconnect m = ClientOutput.skip m) ∧
    (m.isConnected = true →
      (clientDisconnect m).state.isConnected = false ∧
        (clientDisconnect m).events =
          (if m.scanState.isFullScan then [SyncEvent.syncStopped (-1)] else []) ++
            [SyncEvent.disconnected] ∧
        (clientDisconnect m).state.scanState = scanStateWipe ∧
        scanStateIsInProgress (clientDisconnect m).state.scanState = false ∧
        (clientDisconnect m).calls = [] ∧
        (clientDisconnect m).walletActions = []) := by
  constructor
  · intro hc
    unfold clientDisconnect ClientOutput.skip
    rw [if_neg (by simp [hc])]
  · intro hc
    unfold clientDisconnect
    rw [if_pos hc]
    exact ⟨rfl, rfl, rfl, rfl, rfl, rfl⟩

/-- Witness for C4: disconnecting the disconnected manager `m9` does
nothing; disconnecting `mC1` (connected, full scan active) emits
`SyncStopped{-1}` then `Disconnected` and clears the connection flag. -/
theorem claimC4_witness :
    clientDisconnect m9 = ClientOutput.skip m9 ∧
      (clientDisconnect mC1).events =
        [SyncEvent.syncStopped (-1), SyncEvent.disconnected] ∧
      (clientDisconnect mC1).state.isConnected = false := by
  refine ⟨(claimC4 m9).1 (by decide), ?_, ((claimC4 mC1).2 (by decide)).1⟩
  exact ((claimC4 mC1).2 (by decide)).2.1.trans (by decide)



/-- Counterexample to C5 as stated: with the peer manager disconnected, a
connected manager and a full scan in progress, `txStatusUpdate` emits
`SyncStopped` with reason 0 (the event payload is left zero-initialized in
the source), not `SyncStopped{-1}`. -/
theorem claimC5_counterexample :
    (peerTxStatusUpdate false 100
        { networkBlockHeight := 100, isConnected := true, isFullScan := true }).2 =
      [SyncEvent.syncStopped 0, SyncEvent.disconnected, SyncEvent.txnsUpdated] ∧
      SyncEvent.syncStopped (-1) ∉
        (peerTxStatusUpdate false 100
          { networkBlockHeight := 100, isConnected := true, isFullScan := true }).2 := by
  decide

/-- Claim C5 (amended): in P2P mode `txStatusUpdate` sets
`networkBlockHeight` to the maximum of its current value and the peer
manager's last block height; if the peer manager is now disconnected while
the manager was connected it emits `SyncStopped{0}` (the reason payload is
zero-initialized) when a full scan was in progress, then `Disconnected`; it
emits `BlockHeightUpdated` exactly when the height advanced; and it always
emits `TxnsUpdated`. -/
theorem claimC5_amended (pc : Bool) (h : Nat) (m : PeerSyncManager) :
    (peerTxStatusUpdate pc h m).1.networkBlockHeight = max h m.networkBlockHeight ∧
    (pc = false → m.isConnected = true →
      (peerTxStatusUpdate pc h m).2 =
          (if m.networkBlockHeight < h then [SyncEvent.blockHeightUpdated h] else []) ++
            ((if m.isFullScan then [SyncEvent.syncStopped 0] else []) ++
              [SyncEvent.disconnected, SyncEvent.txnsUpdated]) ∧
        (peerTxStatusUpdate pc h m).1.isConnected = false) ∧
    SyncEvent.txnsUpdated ∈ (peerTxStatusUpdate pc h m).2 ∧
    (SyncEvent.blockHeightUpdated h ∈ (peerTxStatusUpdate pc h m).2 ↔
      m.networkBlockHeight < h) := by
  rcases m with ⟨nbh, conn, full⟩
  by_cases hbh : nbh < h
  · cases pc <;> cases conn <;> cases full <;>
      simp [peerTxStatusUpdate, hbh]
  · cases pc <;> cases conn <;> cases full <;>
      simp [peerTxStatusUpdate, hbh]

/-- Witness for C5 (amended) at the counterexample input: height unchanged
(`max 100 100`), and the emitted sequence is
`SyncStopped{0}, Disconnected, TxnsUpdated`. -/
theorem claimC5_witness :
    (peerTxStatusUpdate false 100
        { networkBlockHeight := 100, isConnected := true, isFullScan := true }).1.networkBlockHeight =
        100 ∧
      (peerTxStatusUpdate false 100
          { networkBlockHeight := 100, isConnected := true, isFullScan := true }).2 =
        [SyncEvent.syncStopped 0, SyncEvent.disconnected, SyncEvent.txnsUpdated] := by
  refine ⟨?_, ?_⟩
  · exact (claimC5_amended false 100
      { networkBlockHeight := 100, isConnected := true, isFullScan := true }).1.trans (by decide)
  · exact ((claimC5_amended false 100
      { networkBlockHeight := 100, isConnected := true, isFullScan := true }).2.1 rfl
        rfl).1.trans (by decide)

/-- Counterexample to C6 as stated: constructed with a checkpoint of height
500 and a constructor block height of 100, `initBlockHeight` is 100 (the
minimum of the two), not the checkpoint height 500. -/
theorem claimC6_counterexample :
    (clientSyncManagerNew pA 1000000 100).map ClientSyncManager.initBlockHeight =
        some 100 ∧
      (pA.checkpointBefore (keyTimeMinusOneWeek 1000000)).map BRCheckPoint.height =
        some 500 ∧
      (100 : Nat) ≠ 500 := by
  decide

/-- Claim C6 (amended): for a client-mode manager, `initBlockHeight` equals
`min(checkpointBefore(earliestKeyTime - 7 days).height, blockHeight)` — the
minimum of the checkpoint height and the constructor block height — and it
never changes over the manager's lifetime. -/
theorem claimC6_amended (params : BRChainParams) (ekt bh : Nat) (cp : BRCheckPoint)
    (hcp : params.checkpointBefore (keyTimeMinusOneWeek ekt) = some cp)
    (ops : List ClientOp) (m : ClientSyncManager) :
    (clientSyncManagerNew params ekt bh).map ClientSyncManager.initBlockHeight =
        some (min cp.height bh) ∧
      (clientRun ops m).initBlockHeight = m.initBlockHeight := by
  constructor
  · unfold clientSyncManagerNew
    rw [hcp]
    rfl
  · exact clientRun_initBlockHeight ops m

/-- Witness for C6 (amended): the checkpoint height is 500, the constructor
height 100, so `initBlockHeight = min 500 100 = 100`, and a `disconnect`
leaves it unchanged. -/
theorem claimC6_witness :
    (clientSyncManagerNew pA 1000000 100).map ClientSyncManager.initBlockHeight =
        some 100 ∧
      (clientRun [ClientOp.disconnect] mIdle).initBlockHeight = mIdle.initBlockHeight := by
  have h := claimC6_amended pA 1000000 100 { height := 500, timestamp := 0 } (by decide)
    [ClientOp.disconnect] mIdle
  exact ⟨h.1.trans (by decide), h.2⟩

/-- Counterexample to C7 as stated: the wallet `w7` has a valid send
confirmed at height 94, exactly 6 blocks below the network height 100, so
the spec reading ("at least 6 blocks deep") yields 94; but the code requires
strictly more than 6 blocks (`blockHeight < networkBlockHeight - 6`), finds
nothing, and resets `syncedBlockHeight` to `initBlockHeight` = 10. -/
theorem claimC7_counterexample :
    (clientScanToDepth pA w7 BRSyncDepth.low m7).state.syncedBlockHeight = 10 ∧
      lastConfirmedSendHeightSpec w7.txs m7.networkBlockHeight = 94 ∧
      (10 : Nat) ≠ 94 := by
  decide

/-- Claim C7 (amended): `scanToDepth(Low)` on a connected client-mode
manager sets `syncedBlockHeight` to the height of the wallet's most recent
valid send lying strictly more than `CONFIRMATION_BLOCK_COUNT = 6` blocks
below `networkBlockHeight` when that height is non-zero, and to
`initBlockHeight` otherwise. -/
theorem claimC7_amended (params : BRChainParams) (w : Wallet) (m : ClientSyncManager)
    (hconn : m.isConnected = true) (h32 : m.networkBlockHeight < UINT32_MOD) :
    (clientScanToDepth params w BRSyncDepth.low m).state.syncedBlockHeight =
      (if lastConfirmedSendHeightStrict w.txs m.networkBlockHeight = 0 then
        m.initBlockHeight
      else lastConfirmedSendHeightStrict w.txs m.networkBlockHeight) := by
  unfold clientScanToDepth
  rw [ClientOutput.andThen_state, ClientOutput.andThen_state]
  rw [(updateTransactions_state_synced w _).1, (updateBlockNumber_state_frame _).1]
  unfold scanToDepthLocked
  rw [if_pos hconn]
  dsimp only
  rw [wrap32_small _ h32, getLastConfirmedSendTxHeight_eq_strict]

/-- Witness for C7 (amended): raising the network height to 101 makes the
height-94 send strictly more than 6 deep, so the rescan starts from 94. -/
theorem claimC7_witness :
    (clientScanToDepth pA w7 BRSyncDepth.low
        { initBlockHeight := 10, networkBlockHeight := 101, syncedBlockHeight := 90,
          isConnected := true, requestIdGenerator := 0,
          scanState := scanStateWipe }).state.syncedBlockHeight = 94 := by
  have h := claimC7_amended pA w7
    { initBlockHeight := 10, networkBlockHeight := 101, syncedBlockHeight := 90,
      isConnected := true, requestIdGenerator := 0, scanState := scanStateWipe }
    (by decide) (by decide)
  exact h.trans (by decide)

/-- Claim C8: `submit(tx)` while connected serializes the transaction and
invokes the client's `submitTransaction` callback with a freshly generated
request id, emitting nothing; while disconnected it emits
`TxnSubmitted{tx, -1}` immediately and makes no client call. -/
theorem claimC8 (tx : Transaction) (m : ClientSyncManager) :
    (m.isConnected = true →
      (clientSubmit tx m).calls =
          [ClientCall.submitTransaction tx.serialized tx.txHash
            (m.requestIdGenerator + 1)] ∧
        (clientSubmit tx m).state.requestIdGenerator = m.requestIdGenerator + 1 ∧
        (clientSubmit tx m).events = []) ∧
    (m.isConnected = false →
      (clientSubmit tx m).events = [SyncEvent.txnSubmitted tx.txHash (-1)] ∧
        (clientSubmit tx m).calls = [] ∧
        (clientSubmit tx m).state = m) := by
  constructor
  · intro hc
    unfold clientSubmit generateRid
    rw [if_pos hc]
    exact ⟨rfl, rfl, rfl⟩
  · intro hc
    unfold clientSubmit
    rw [if_neg (by simp [hc])]
    exact ⟨rfl, rfl, rfl⟩

/-- Witness for C8: submitting `txT` on the connected manager calls the
client with rid 1 and its serialized bytes; on the disconnected manager it
synthesizes `TxnSubmitted{7, -1}`. -/
theorem claimC8_witness :
    (clientSubmit txT mIdle).calls = [ClientCall.submitTransaction [1, 2, 3] 7 1] ∧
      (clientSubmit txT m9).events = [SyncEvent.txnSubmitted 7 (-1)] := by
  refine ⟨?_, ?_⟩
  · exact ((claimC8 txT mIdle).1 (by decide)).1.trans (by decide)
  · exact ((claimC8 txT m9).2 (by decide)).1.trans (by decide)



/-- Counterexample to C9 as stated: from a fresh manager, `connect` hands
out rids 1 (getBlockNumber) and 2 (getTransactions), `tickTock` hands out 3
(getBlockNumber; the scan is still in flight), and the successful completion
with gap-limit growth re-issues `getTransactions` with the original id 2 —
so the id stream `[1, 2, 3, 2]` handed to the client callbacks is not
strictly increasing. -/
theorem claimC9_counterexample :
    clientRunRids ops9 m9 = [1, 2, 3, 2] ∧
      ¬ List.Pairwise (fun a b : Int => a < b) (clientRunRids ops9 m9) := by
  decide

/-- Claim C9 (amended): every request id a client-mode manager hands to the
client callbacks is a positive integer (0 is reserved to mean no scan in
progress), and the ids of the calls that allocate a fresh id — every call
except the `getTransactions` re-issued by `announceGetTransactionsDone`,
which reuses the in-progress scan's id — form a strictly increasing
sequence over the manager's lifetime; a freshly constructed manager
satisfies the required id invariant. -/
theorem claimC9_amended (ops : List ClientOp) (m : ClientSyncManager)
    (hinv : RidInv m) (hops : ∀ op ∈ ops, op.doneRidNonzero) :
    List.Pairwise (fun a b : Int => a < b) (clientRunFreshRids ops m) ∧
      (∀ r ∈ clientRunFreshRids ops m, m.requestIdGenerator < r) ∧
      (∀ r ∈ clientRunRids ops m, 0 < r) ∧
      (∀ (params : BRChainParams) (ekt bh : Nat) (m0 : ClientSyncManager),
        clientSyncManagerNew params ekt bh = some m0 → RidInv m0) := by
  refine ⟨(clientRunFreshRids_bounds ops m).1, ?_,
    clientRunRids_pos ops m hinv hops, ?_⟩
  · intro r hr
    exact ((clientRunFreshRids_bounds ops m).2 r hr).1
  · intro params ekt bh m0 hnew
    unfold clientSyncManagerNew at hnew
    rcases hcp : params.checkpointBefore (keyTimeMinusOneWeek ekt) with _ | cp
    · rw [hcp] at hnew
      exact absurd hnew (by simp)
    · rw [hcp] at hnew
      dsimp only at hnew
      cases Option.some.inj hnew
      exact ⟨le_refl 0, Or.inl rfl⟩

/-- Witness for C9 (amended) on the trace `ops9` from the fresh manager
`m9`: the freshly allocated ids are strictly increasing and every handed id
is positive. -/
theorem claimC9_witness :
    List.Pairwise (fun a b : Int => a < b) (clientRunFreshRids ops9 m9) ∧
      ∀ r ∈ clientRunRids ops9 m9, 0 < r := by
  have hops : ∀ op ∈ ops9, op.doneRidNonzero := by
    intro op hop
    simp only [ops9, List.mem_cons, List.not_mem_nil, or_false] at hop
    rcases hop with rfl | rfl | rfl
    · trivial
    · trivial
    · exact (by decide : (2 : Int) ≠ 0)
  have h := claimC9_amended ops9 m9 ⟨by decide, Or.inl (by decide)⟩ hops
  exact ⟨h.1, h.2.2.1⟩

/-- Claim C10: `announceGetTransactionsItem(rid, bytes, ts, height)`
modifies the wallet (registering or updating a transaction) only when the
byte payload parses as a transaction and the parsed transaction is signed;
unparseable or unsigned payloads are dropped silently — no wallet change,
no event, no client call, and no manager state change.  (The wallet is
touched only when, additionally, the rid matches and the manager is
connected.) -/
theorem claimC10 (parse : List Nat → Option Transaction) (w : Wallet) (rid : Int)
    (bytes : List Nat) (ts hgt : Nat) (m : ClientSyncManager) :
    (parse bytes = none →
      announceGetTransactionsItem parse w rid bytes ts hgt m = ClientOutput.skip m) ∧
    (∀ t, parse bytes = some t → t.isSigned = false →
      announceGetTransactionsItem parse w rid bytes ts hgt m = ClientOutput.skip m) ∧
    ((announceGetTransactionsItem parse w rid bytes ts hgt m).walletActions ≠ [] →
      ∃ t, parse bytes = some t ∧ t.isSigned = true ∧ rid = m.scanState.requestId ∧
        m.isConnected = true) ∧
    (announceGetTransactionsItem parse w rid bytes ts hgt m).events = [] ∧
    (announceGetTransactionsItem parse w rid bytes ts hgt m).calls = [] ∧
    (announceGetTransactionsItem parse w rid bytes ts hgt m).state = m := by
  unfold announceGetTransactionsItem ClientOutput.skip
  rcases hp : parse bytes with _ | t
  · dsimp only
    refine ⟨fun _ => rfl, ?_, ?_, rfl, rfl, rfl⟩
    · intro t2 ht2 _
      exact absurd ht2 (by simp)
    · intro habs
      exact absurd rfl habs
  · dsimp only
    split
    · rename_i hcond
      refine ⟨?_, ?_, ?_, ?_, ?_, ?_⟩
      · intro hnone
        exact absurd hnone (by simp)
      · intro t2 ht2 hs2
        cases Option.some.inj ht2
        rw [hcond.1] at hs2
        exact absurd hs2 (by simp)
      · intro _
        exact ⟨t, rfl, hcond.1, hcond.2.1, hcond.2.2⟩
      · split
        · rfl
        · rfl
      · split
        · rfl
        · rfl
      · split
        · rfl
        · rfl
    · refine ⟨fun _ => rfl, fun _ _ _ => rfl, ?_, rfl, rfl, rfl⟩
      intro habs
      exact absurd rfl habs

/-- Witness for C10: the codec `parseFix` rejects `[9]` (unparseable) and
parses `[1]` into the unsigned `txU`; in both cases — even with a matching
rid on the connected `mC1` — the call is a silent no-op. -/
theorem claimC10_witness :
    announceGetTransactionsItem parseFix wA 2 [9] 5 50 mC1 = ClientOutput.skip mC1 ∧
      announceGetTransactionsItem parseFix wA 2 [1] 5 50 mC1 = ClientOutput.skip mC1 := by
  refine ⟨?_, ?_⟩
  · exact (claimC10 parseFix wA 2 [9] 5 50 mC1).1 (by decide)
  · exact (claimC10 parseFix wA 2 [1] 5 50 mC1).2.1 txU (by decide) (by decide)


end BRSyncManager
